import Mathlib

set_option linter.unusedVariables false

/-!
Verification development for the archlinux_bootstrap repository.

The repository holds three variants of an Arch Linux installation pipeline:

* `src/main.py` (namespace `Main` below): an `ExitStack`-based pipeline built
  on the `archinstall` library, with scoped resources (key mount, GPT
  filesystem context, unlocked LUKS root, root mount, boot mount, installer
  context) and a bootloader/locale/initramfs configuration stage.
* `src/main1.py` (namespace `Main1` below): an older variant of the same
  pipeline; its `setup_bootloader` hardcodes the kernel name `linux` and its
  `misc_install` locale loop rebinds the installer variable `i`.
* `src/archlinux_bootstrap/main.py` (namespace `Bootstrap` below): a
  subprocess-based variant with an explicit `run` command executor,
  `parted`-based partitioning and a fixed pacstrap package set.

Python strings are embedded as Lean `String`, file contents as the exact
string produced by the sequence of `write` calls, and the stateful pipeline
of `src/main.py` as an explicit step list executed against an exit-status /
failure oracle.
-/

/-- Split a character list at every newline character; the result is the
list of newline-free segments, one more segment than there are newlines. -/
def splitNl : List Char → List (List Char)
  | [] => [[]]
  | c :: cs =>
    match splitNl cs with
    | [] => [[]]
    | l :: ls => if c = '\n' then [] :: l :: ls else (c :: l) :: ls

/-- Concatenation of a list of lines, each terminated by a newline: the file
content produced by writing each line with a `write` call ending in a
newline character. -/
def joinLines : List String → String
  | [] => ""
  | l :: ls => l ++ "\n" ++ joinLines ls

/-- The lines of a newline-terminated file content: split the content at
newlines and drop the final empty segment. -/
def fileLines (s : String) : List String :=
  ((splitNl s.data).map List.asString).dropLast

namespace Bootstrap

/-! Embedding of `src/archlinux_bootstrap/main.py`. -/

/-- A Python path object, as produced by `pathlib.Path(value)`. -/
structure PyPath where
  repr : String
deriving DecidableEq, Repr

/-- Result of the first (shadowed) `PathField._deserialize` in
`src/archlinux_bootstrap/main.py`: on an empty value it RETURNS a
`ValidationError` object (it does not raise), otherwise a `Path`. -/
inductive ShadowedFieldResult
  | path (p : PyPath)
  | errObject (msg : String)
deriving DecidableEq, Repr

/-- The first `PathField._deserialize` definition (lines 18-27), which is
shadowed by the second class of the same name: `if not value: return
ValidationError(...)` returns the error object as an ordinary value, so no
exception escapes for any input. -/
def shadowedPathFieldDeserialize (value : String) : Except String ShadowedFieldResult :=
  if value = "" then .ok (.errObject "Must\x27nt be empty")
  else .ok (.path ⟨value⟩)

/-- The second, effective `PathField._deserialize` definition (lines 33-40):
`return pathlib.Path(value)` with no emptiness check at all. -/
def pathFieldDeserialize (value : String) : Except String PyPath :=
  .ok ⟨value⟩

/-- The exception type raised by `run` on a non-zero exit status. -/
structure CommandNotSuccessful where
  cmd : String
deriving DecidableEq, Repr

/-- The command executor `run(cmd, force)` of `src/archlinux_bootstrap/main.py`
(lines 71-79), as a function of the exit status of the invoked command:
`if not force and rv != 0: raise CommandNotSuccessful(cmd)`. -/
def run (cmd : String) (exitStatus : Int) (force : Bool) :
    Except CommandNotSuccessful Unit :=
  if ¬ force ∧ exitStatus ≠ 0 then .error ⟨cmd⟩ else .ok ()

/-- One shell command of the pipeline together with the `force` flag it is
run with. -/
structure Cmd where
  cmd : String
  force : Bool
deriving DecidableEq, Repr

/-- Run a list of commands in order, numbering them from `n`, against an
oracle giving each command position its exit status; stop at the first
command on which `run` raises. -/
def runCmdsFrom (exits : Nat → Int) : List Cmd → Nat → Except CommandNotSuccessful Unit
  | [], _ => .ok ()
  | c :: rest, n =>
    match run c.cmd (exits n) c.force with
    | .error e => .error e
    | .ok _ => runCmdsFrom exits rest (n + 1)

/-- Run a list of commands from position `0`. -/
def runCmds (cmds : List Cmd) (exits : Nat → Int) : Except CommandNotSuccessful Unit :=
  runCmdsFrom exits cmds 0

/-- The command sequence of `partion_the_disk(device)` (lines 104-120),
with the partition paths `boot` and `root` as obtained from
`sorted(disk_partitions(device))`. Every `parted` invocation is run with
`force=True`; all other commands use the default `force=False`. -/
def partionTheDiskCmds (device boot root : String) : List Cmd :=
  [ ⟨"mkdir /key && mount `findfs LABEL=lukskey` /key", false⟩,
    ⟨"yes | parted " ++ device ++ " -- mklabel gpt", true⟩,
    ⟨"yes | parted " ++ device ++ " -- mkpart ESP fat32 1MiB 512MiB", true⟩,
    ⟨"yes | parted " ++ device ++ " -- mkpart primary 512MiB 100%", true⟩,
    ⟨"yes | parted " ++ device ++ " -- set 1 esp on", true⟩,
    ⟨"cryptsetup -q luksFormat " ++ root ++ " /key/key --label cryptroot", false⟩,
    ⟨"cryptsetup luksOpen " ++ root ++ " cryptroot --key-file /key/key", false⟩,
    ⟨"mkfs.ext4 -L arch /dev/mapper/cryptroot", false⟩,
    ⟨"mount /dev/disk/by-label/arch /mnt", false⟩,
    ⟨"mkdir /mnt/boot", false⟩,
    ⟨"mount " ++ boot ++ " /mnt/boot", false⟩ ]

/-- Execution of `partion_the_disk` against an exit-status oracle. -/
def partionTheDisk (device boot root : String) (exits : Nat → Int) :
    Except CommandNotSuccessful Unit :=
  runCmds (partionTheDiskCmds device boot root) exits

/-- The package set handed to pacstrap by `bootstrap()` (lines 159-162):
`base base-devel (kernel) linux-firmware intel-ucode`. -/
def pacstrapPackages (kernel : String) : List String :=
  ["base", "base-devel", kernel, "linux-firmware", "intel-ucode"]

/-- The packages `bootstrap()` installs on a machine whose detected CPU
vendor is `vendor`: the function body never consults the vendor, so the
set is the vendor-independent `pacstrapPackages`. -/
def installedPackages (kernel vendor : String) : List String :=
  pacstrapPackages kernel

/-- Ascending insertion into a sorted list of strings, using the code-point
lexicographic order that Python `sorted` uses on `str`. -/
def sortedInsert (x : String) : List String → List String
  | [] => [x]
  | y :: ys => if x ≤ y then x :: y :: ys else y :: sortedInsert x ys

/-- Ascending sort of a list of strings, the embedding of Python
`sorted(...)` as used in `boot, root = sorted(disk_partitions(device))`
(line 112). -/
def pySorted (l : List String) : List String :=
  l.foldr sortedInsert []

/-- The two partition device paths produced by the fixed two-partition
layout: the partitioning tool appends partition number 1 to the EFI system
partition created first and number 2 to the primary partition created
second, after a common device-dependent prefix (for example
`/dev/sda` + `1` or `/dev/nvme0n1p` + `2`). -/
def layoutPartitionPaths (pathStem : String) : List String :=
  [pathStem ++ "1", pathStem ++ "2"]

end Bootstrap

namespace Main

/-! Embedding of `src/main.py`. -/

/-- Content of `boot/loader/loader.conf` written by `setup_bootloader`
(src/main.py lines 131-134), the concatenation of the three `loader.write`
calls. -/
def loader_conf : String :=
  "default arch\n" ++ "timeout 3\n" ++ "editor no\n"

/-- The microcode package appended to the base package list by
`misc_install` (src/main.py lines 232-240) as a function of the string
returned by `archinstall.cpu_vendor()`: the `if`/`elif` chain selects
`amd-ucode` for `AuthenticAMD`, `intel-ucode` for `GenuineIntel`, and
falls through without error for any other vendor. -/
def ucode_package (vendor : String) : Option String :=
  if vendor = "AuthenticAMD" then some "amd-ucode"
  else if vendor = "GenuineIntel" then some "intel-ucode"
  else none

/-- The byte content of `boot/loader/entries/arch.conf` written by
`setup_bootloader` (src/main.py lines 135-148): the concatenation of the
`entry.write` calls, in order, with the vendor microcode write guarded by
the `if`/`elif` on `archinstall.cpu_vendor()` and the options write built
from three adjacent string literals. -/
def arch_conf (kernel vendor keyLabel keyFile : String) : String :=
  "title Arch Linux\n"
  ++ ("linux /vmlinuz-" ++ kernel ++ "\n")
  ++ (if vendor = "AuthenticAMD" then "initrd /amd-ucode.img\n"
      else if vendor = "GenuineIntel" then "initrd /intel-ucode.img\n" else "")
  ++ ("initrd /initramfs-" ++ kernel ++ ".img\n")
  ++ ("options cryptdevice=LABEL=cryptroot:cryptroot "
      ++ ("cryptkey=LABEL=" ++ keyLabel ++ ":vfat:" ++ keyFile ++ " ")
      ++ "root=/dev/mapper/cryptroot rw\n")

/-- The hook-declaration step of `misc_install` (src/main.py lines 258-259):
`if "encrypt" not in i.HOOKS: i.HOOKS.insert(i.HOOKS.index("filesystems"),
"encrypt")`, run just before `i.mkinitcpio("-P")`. -/
def declare_hooks (hooks : List String) : List String :=
  if "encrypt" ∈ hooks then hooks
  else hooks.insertIdx (hooks.indexOf "filesystems") "encrypt"

/-- Rendering of `/etc/locale.conf` by `misc_install` (src/main.py lines
249-251): one `KEY=VALUE` line written per entry of `cfg.lc_conf_vars`, in
mapping order. -/
def render_locale_conf (lcConfVars : List (String × String)) : String :=
  joinLines (lcConfVars.map (fun kv => kv.1 ++ "=" ++ kv.2))

/-- Writing `/etc/locale.conf` with `open(..., "w")`: mode `w` truncates
the file, so the resulting content is a function of the written variables
alone and the previous content is discarded. -/
def write_locale_conf (previousContent : String)
    (lcConfVars : List (String × String)) : String :=
  render_locale_conf lcConfVars

/-- The scoped resources entered on the `ExitStack` of `main()`
(src/main.py lines 313-316) and of the functions it calls. -/
inductive Resource
  | keyMount
  | gptFilesystem
  | luksRoot
  | rootMount
  | bootMount
  | installerCtx
deriving DecidableEq, Repr

/-- One step of the pipeline: either entering a context manager on the
`ExitStack` (a scoped-resource acquisition) or a plain side-effecting
action that can raise but acquires nothing. -/
inductive PStep
  | acquire (r : Resource)
  | action (name : String)

/-- Observable events of a pipeline run. -/
inductive Event
  | acq (r : Resource)
  | rel (r : Resource)
deriving DecidableEq, Repr

/-- Execution of a step list against an oracle `fails` telling which step
index raises. Steps run in order; a successful `acquire` pushes its
resource onto the stack of entered contexts; at the first failure, or after
the last step, the `ExitStack` unwinds: every entered context is released,
most recently entered first. A step that fails acquires nothing. -/
def runStack (fails : Nat → Bool) : List PStep → Nat → List Resource → List Event
  | [], _, stk => stk.map Event.rel
  | s :: rest, n, stk =>
    if fails n then stk.map Event.rel
    else
      match s with
      | .acquire r => Event.acq r :: runStack fails rest (n + 1) (r :: stk)
      | .action _ => runStack fails rest (n + 1) stk

/-- The step sequence of `main()` in src/main.py: `mount_key` is entered on
the stack, then `partition_the_disk` enters the GPT `Filesystem` context,
formats and encrypts, enters the unlocked `Luks2` root, formats it, enters
`partition_mount` for root and for boot, and `misc_install` enters the
`Installer` context and runs the remaining stages. -/
def pipelineSteps : List PStep :=
  [ .acquire .keyMount,
    .acquire .gptFilesystem,
    .action "use_entire_disk and format boot",
    .action "cryptsetup luksFormat root",
    .acquire .luksRoot,
    .action "mkfs.ext4 on /dev/mapper/cryptroot",
    .acquire .rootMount,
    .acquire .bootMount,
    .acquire .installerCtx,
    .action "misc_install body" ]

/-- A full pipeline run under a failure oracle. -/
def runPipeline (fails : Nat → Bool) : List Event :=
  runStack fails pipelineSteps 0 []

/-- The resources whose acquisition succeeded in a trace, in acquisition
order. -/
def acquiredOf (tr : List Event) : List Resource :=
  tr.filterMap fun e => match e with | .acq r => some r | .rel _ => none

/-- The resources released in a trace, in release order. -/
def releasedOf (tr : List Event) : List Resource :=
  tr.filterMap fun e => match e with | .rel r => some r | .acq _ => none

end Main

namespace Main1

/-! Embedding of `src/main1.py`. -/

/-- The byte content of `boot/loader/entries/arch.conf` written by
`setup_bootloader` in src/main1.py (lines 62-75): the kernel and initramfs
writes are the literal strings `linux /vmlinuz-linux` and
`initrd /initramfs-linux.img`; the configured kernel package is not
consulted. -/
def arch_conf (kernelPackage vendor keyLabel keyFile : String) : String :=
  "title Arch Linux\n"
  ++ "linux /vmlinuz-linux\n"
  ++ (if vendor = "AuthenticAMD" then "initrd /amd-ucode.img\n"
      else if vendor = "GenuineIntel" then "initrd /intel-ucode.img\n" else "")
  ++ "initrd /initramfs-linux.img\n"
  ++ ("options cryptdevice=LABEL=cryptroot:cryptroot "
      ++ ("cryptkey=LABEL=" ++ keyLabel ++ ":vfat:" ++ keyFile ++ " ")
      ++ "root=/dev/mapper/cryptroot rw\n")

/-- The value bound to the name `i` at a point of `misc_install` in
src/main1.py: initially the `Installer` context object, but the locale
loop `for i, v in cfg.lc_conf_vars.items()` rebinds it to each key of the
mapping in turn. -/
inductive PyVal
  | installerObj
  | strVal (s : String)
deriving DecidableEq, Repr

/-- The stages of `misc_install` in src/main1.py (lines 79-112). -/
inductive Stage
  | pacstrapBase
  | setHostname
  | localeGenAppend
  | localeConfWrite
  | chmodRoot
  | moduleDecl
  | mkinitcpio
  | postHooks
  | bootloaderSetup
deriving DecidableEq, Repr

/-- One operation of `misc_install`, classified by how it uses the binding
`i`: an attribute access on `i` (which needs the `Installer` object and
raises `AttributeError` on a string), the locale-configuration `with` block
(which opens the file through `i.target`, writes every `KEY=VALUE` line and
leaves `i` rebound to the last key of a non-empty mapping), or the final
`setup_bootloader(i)` call, which omits the required `cfg` argument and
therefore raises `TypeError` whenever it is reached. -/
inductive Op
  | useInstaller (stage : Stage)
  | localeLoop
  | bootloaderCall

/-- The operation sequence of `misc_install` after entering the `Installer`
context. -/
def miscInstallOps : List Op :=
  [ .useInstaller .pacstrapBase,
    .useInstaller .setHostname,
    .useInstaller .localeGenAppend,
    .localeLoop,
    .useInstaller .chmodRoot,
    .useInstaller .moduleDecl,
    .useInstaller .mkinitcpio,
    .useInstaller .postHooks,
    .bootloaderCall ]

/-- Run the operations of `misc_install` for a given locale-variable
mapping, returning the list of completed stages and the error that stopped
execution, if any. -/
def runOps (lcConfVars : List (String × String)) :
    List Op → PyVal → List Stage → List Stage × Option String
  | [], _, done => (done, none)
  | op :: rest, binding, done =>
    match op with
    | .useInstaller stage =>
      match binding with
      | .installerObj => runOps lcConfVars rest binding (done ++ [stage])
      | .strVal _ => (done, some "AttributeError")
    | .localeLoop =>
      match binding with
      | .installerObj =>
        let binding' : PyVal :=
          match lcConfVars.getLast? with
          | some kv => .strVal kv.1
          | none => .installerObj
        runOps lcConfVars rest binding' (done ++ [Stage.localeConfWrite])
      | .strVal _ => (done, some "AttributeError")
    | .bootloaderCall => (done, some "TypeError")

/-- A run of `misc_install` in src/main1.py: completed stages plus the
error terminating it. -/
def misc_install (lcConfVars : List (String × String)) :
    List Stage × Option String :=
  runOps lcConfVars miscInstallOps .installerObj []

end Main1

/-! Helper lemmas about line splitting and joining. -/

theorem splitNl_ne_nil (cs : List Char) : splitNl cs ≠ [] := by
  cases cs with
  | nil => simp [splitNl]
  | cons c cs =>
    simp only [splitNl]
    cases h : splitNl cs with
    | nil => simp
    | cons l ls =>
      by_cases hc : c = '\n' <;> simp [hc]

theorem splitNl_append_line (l rest : List Char) (hl : '\n' ∉ l) :
    splitNl (l ++ '\n' :: rest) = l :: splitNl rest := by
  induction l with
  | nil =>
    simp only [List.nil_append, splitNl]
    cases h : splitNl rest with
    | nil => exact absurd h (splitNl_ne_nil rest)
    | cons a as => simp
  | cons c cs ih =>
    have hc : c ≠ '\n' := fun h => hl (h ▸ List.mem_cons_self c cs)
    have hcs : '\n' ∉ cs := fun h => hl (List.mem_cons_of_mem c h)
    have h1 : splitNl ((c :: cs) ++ '\n' :: rest)
        = match splitNl (cs ++ '\n' :: rest) with
          | [] => [[]]
          | l :: ls => if c = '\n' then [] :: l :: ls else (c :: l) :: ls := rfl
    rw [h1, ih hcs]
    simp [hc]

theorem data_joinLines_cons (l : String) (ls : List String) :
    (joinLines (l :: ls)).data = l.data ++ '\n' :: (joinLines ls).data := by
  simp [joinLines, String.data_append]

/-- Splitting a newline-terminated concatenation of newline-free lines
recovers exactly those lines. -/
theorem fileLines_joinLines (ls : List String)
    (h : ∀ l ∈ ls, '\n' ∉ l.data) :
    fileLines (joinLines ls) = ls := by
  induction ls with
  | nil => simp [fileLines, joinLines, splitNl]
  | cons l ls ih =>
    have hl : '\n' ∉ l.data := h l (List.mem_cons_self l ls)
    have hls : ∀ x ∈ ls, '\n' ∉ x.data := fun x hx => h x (List.mem_cons_of_mem l hx)
    have hsplit : splitNl ((joinLines (l :: ls)).data)
        = l.data :: splitNl (joinLines ls).data := by
      rw [data_joinLines_cons]
      exact splitNl_append_line l.data (joinLines ls).data hl
    have htail : ((splitNl (joinLines ls).data).map List.asString).dropLast = ls := ih hls
    have hne : (splitNl (joinLines ls).data).map List.asString ≠ [] := by
      intro hcontra
      exact splitNl_ne_nil (joinLines ls).data (List.map_eq_nil_iff.mp hcontra)
    calc fileLines (joinLines (l :: ls))
        = ((l.data :: splitNl (joinLines ls).data).map List.asString).dropLast := by
            rw [fileLines, hsplit]
      _ = (l.data.asString :: (splitNl (joinLines ls).data).map List.asString).dropLast := by
            rw [List.map_cons]
      _ = l.data.asString :: ((splitNl (joinLines ls).data).map List.asString).dropLast := by
            rw [List.dropLast_cons_of_ne_nil hne]
      _ = l :: ls := by
            rw [htail]
            exact congrArg (fun s => s :: ls) (String.asString_toList l)

theorem mem_data_append (c : Char) (s t : String) :
    c ∈ (s ++ t).data ↔ c ∈ s.data ∨ c ∈ t.data := by
  simp [String.data_append]

/-! Helper lemmas about the code-point lexicographic order on strings. -/

theorem listLt_append_last (a b : Char) (h : a < b) :
    ∀ l : List Char, (l ++ [a]) < (l ++ [b])
  | [] => List.Lex.rel h
  | c :: cs => List.Lex.cons (listLt_append_last a b h cs)

theorem string_append_one_lt_append_two (d : String) : d ++ "1" < d ++ "2" := by
  rw [String.lt_iff_toList_lt]
  show (d ++ "1").data < (d ++ "2").data
  rw [String.data_append, String.data_append]
  exact listLt_append_last '1' '2' (by decide) d.data

theorem pySorted_pair (a b : String) (hab : a < b) :
    Bootstrap.pySorted [a, b] = [a, b] ∧ Bootstrap.pySorted [b, a] = [a, b] := by
  have hle : a ≤ b := le_of_lt hab
  have hnle : ¬ b ≤ a := not_le.mpr hab
  constructor
  · simp [Bootstrap.pySorted, Bootstrap.sortedInsert, hle]
  · simp [Bootstrap.pySorted, Bootstrap.sortedInsert, hnle]

/-! Claim theorems. -/

/-- C4: for every block device partitioned with the fixed two-partition
layout (EFI system partition created first as partition 1, primary
partition second as partition 2), sorting the resulting partition device
paths ascending, as `boot, root = sorted(disk_partitions(device))` does,
yields the boot partition path first and the root partition path second,
whichever order `lsblk` reported them in. -/
theorem c4_sorted_layout_boot_before_root (pathStem : String) :
    Bootstrap.pySorted (Bootstrap.layoutPartitionPaths pathStem)
      = [pathStem ++ "1", pathStem ++ "2"]
  ∧ Bootstrap.pySorted ((Bootstrap.layoutPartitionPaths pathStem).reverse)
      = [pathStem ++ "1", pathStem ++ "2"] := by
  have hlt := string_append_one_lt_append_two pathStem
  have hp := pySorted_pair _ _ hlt
  refine ⟨?_, ?_⟩
  · simpa [Bootstrap.layoutPartitionPaths] using hp.1
  · simpa [Bootstrap.layoutPartitionPaths] using hp.2

/-- C5: the command executor `run(cmd, force)` raises
`CommandNotSuccessful` exactly when the exit status is non-zero and
`force` is `False`; it returns normally exactly when the exit status is
zero or `force` is `True`. -/
theorem c5_run_error_iff (cmd : String) (exitStatus : Int) (force : Bool) :
    (Bootstrap.run cmd exitStatus force = Except.error ⟨cmd⟩
       ↔ (exitStatus ≠ 0 ∧ force = false))
  ∧ (Bootstrap.run cmd exitStatus force = Except.ok ()
       ↔ (exitStatus = 0 ∨ force = true)) := by
  unfold Bootstrap.run
  by_cases hf : force <;> by_cases he : exitStatus = 0 <;> simp [hf, he]

/-- C9 (code bug): deserializing an empty path-like field raises no
validation error. The effective `PathField` (the second class definition,
which shadows the first) returns `Path(value)` unconditionally, and even
the shadowed validating definition returns the `ValidationError` object as
a value instead of raising it, so `load_config` accepts configurations
with empty path-like fields. -/
theorem c9_empty_path_accepted :
    Bootstrap.pathFieldDeserialize "" = Except.ok ⟨""⟩
  ∧ Bootstrap.shadowedPathFieldDeserialize ""
      = Except.ok (Bootstrap.ShadowedFieldResult.errObject "Must\x27nt be empty")
  ∧ ∀ v : String, ∃ p : Bootstrap.PyPath,
      Bootstrap.pathFieldDeserialize v = Except.ok p := by
  refine ⟨rfl, by simp [Bootstrap.shadowedPathFieldDeserialize], fun v => ⟨⟨v⟩, rfl⟩⟩

/-- C3 counterexample: on a machine whose detected CPU vendor is
`AuthenticAMD`, the `bootstrap()` pipeline of
src/archlinux_bootstrap/main.py installs `intel-ucode` and does not
install `amd-ucode`, contradicting the claimed vendor-to-microcode
mapping for that variant. -/
theorem c3_counterexample :
    "intel-ucode" ∈ Bootstrap.installedPackages "linux" "AuthenticAMD"
  ∧ "amd-ucode" ∉ Bootstrap.installedPackages "linux" "AuthenticAMD" := by
  constructor
  · simp [Bootstrap.installedPackages, Bootstrap.pacstrapPackages]
  · decide

/-- C3 amended: in src/main.py (and src/main1.py) the microcode package is
a pure function of the detected vendor, `amd-ucode` exactly for
`AuthenticAMD`, `intel-ucode` exactly for `GenuineIntel`, and none (with
no error) otherwise; the src/archlinux_bootstrap/main.py variant instead
installs `intel-ucode` unconditionally, for every detected vendor. -/
theorem c3_vendor_microcode_mapping (vendor kernel : String) :
    (Main.ucode_package vendor = some "amd-ucode" ↔ vendor = "AuthenticAMD")
  ∧ (Main.ucode_package vendor = some "intel-ucode" ↔ vendor = "GenuineIntel")
  ∧ (Main.ucode_package vendor = none
       ↔ (vendor ≠ "AuthenticAMD" ∧ vendor ≠ "GenuineIntel"))
  ∧ "intel-ucode" ∈ Bootstrap.installedPackages kernel vendor := by
  refine ⟨?_, ?_, ?_, ?_⟩
  · by_cases h1 : vendor = "AuthenticAMD"
    · simp [Main.ucode_package, h1]
    · by_cases h2 : vendor = "GenuineIntel" <;> simp [Main.ucode_package, h1, h2]
  · by_cases h1 : vendor = "AuthenticAMD"
    · subst h1
      simp [Main.ucode_package]
    · by_cases h2 : vendor = "GenuineIntel" <;> simp [Main.ucode_package, h1, h2]
  · by_cases h1 : vendor = "AuthenticAMD"
    · simp [Main.ucode_package, h1]
    · by_cases h2 : vendor = "GenuineIntel" <;> simp [Main.ucode_package, h1, h2]
  · simp [Bootstrap.installedPackages, Bootstrap.pacstrapPackages]

/-! C6: execution of the partitioning command sequence. -/

theorem runCmdsFrom_ok_iff (exits : Nat → Int) :
    ∀ (cmds : List Bootstrap.Cmd) (n : Nat),
      Bootstrap.runCmdsFrom exits cmds n = Except.ok () ↔
        ∀ i c, cmds[i]? = some c → c.force = false → exits (n + i) = 0 := by
  intro cmds
  induction cmds with
  | nil =>
    intro n
    simp [Bootstrap.runCmdsFrom]
  | cons c rest ih =>
    intro n
    by_cases hc : (¬ c.force = true ∧ exits n ≠ 0)
    · have herr : Bootstrap.runCmdsFrom exits (c :: rest) n = Except.error ⟨c.cmd⟩ := by
        simp [Bootstrap.runCmdsFrom, Bootstrap.run, hc]
      rw [herr]
      constructor
      · intro hcontra
        cases hcontra
      · intro hall
        have h0 := hall 0 c (by simp) (by simpa using hc.1)
        exact absurd (by simpa using h0) hc.2
    · have hc2 : ¬ (c.force = false ∧ ¬ exits n = 0) := by
        simpa [Bool.not_eq_true] using hc
      have hok : Bootstrap.runCmdsFrom exits (c :: rest) n
          = Bootstrap.runCmdsFrom exits rest (n + 1) := by
        simp [Bootstrap.runCmdsFrom, Bootstrap.run, hc2]
      rw [hok, ih (n + 1)]
      constructor
      · intro hall i cc hget hf
        cases i with
        | zero =>
          have hcc : cc = c := by simpa using hget.symm
          subst hcc
          rcases not_and_or.mp hc with h1 | h2
          · exact absurd hf (by simpa using h1)
          · simpa using not_ne_iff.mp h2
        | succ i =>
          have hidx : n + (i + 1) = (n + 1) + i := by omega
          rw [hidx]
          exact hall i cc (by simpa using hget) hf
      · intro hall i cc hget hf
        have hidx : (n + 1) + i = n + (i + 1) := by omega
        rw [hidx]
        exact hall (i + 1) cc (by simpa using hget) hf

/-- C6 counterexample: with an exit-status oracle under which the
`parted mklabel gpt` invocation (command index 1) exits with status 1 and
every other command succeeds, `partion_the_disk` does not abort: it runs
to completion, proceeding through encryption, formatting and mounting. -/
theorem c6_counterexample :
    Bootstrap.partionTheDisk "/dev/sda" "/dev/sda1" "/dev/sda2"
        (fun n => if n = 1 then 1 else 0) = Except.ok ()
  ∧ (fun n => if n = 1 then (1 : Int) else 0) 1 ≠ 0
  ∧ (Bootstrap.partionTheDiskCmds "/dev/sda" "/dev/sda1" "/dev/sda2")[1]?
      = some ⟨"yes | parted /dev/sda -- mklabel gpt", true⟩ := by
  refine ⟨rfl, by decide, by decide⟩

/-- C6 amended: a parted invocation exiting non-zero is not fatal — all
four `parted` commands of `partion_the_disk` run with `force=True` — and
the run aborts exactly when one of the non-forced commands (the key mount,
`cryptsetup luksFormat`, `cryptsetup luksOpen`, `mkfs.ext4`, or one of the
mount/mkdir commands) exits non-zero. -/
theorem c6_parted_failures_tolerated (device boot root : String) (exits : Nat → Int) :
    (Bootstrap.partionTheDisk device boot root exits = Except.ok () ↔
      ∀ i c, (Bootstrap.partionTheDiskCmds device boot root)[i]? = some c →
        c.force = false → exits i = 0)
  ∧ ((Bootstrap.partionTheDiskCmds device boot root).filter
        (fun c => c.force)).map Bootstrap.Cmd.cmd
      = [ "yes | parted " ++ device ++ " -- mklabel gpt",
          "yes | parted " ++ device ++ " -- mkpart ESP fat32 1MiB 512MiB",
          "yes | parted " ++ device ++ " -- mkpart primary 512MiB 100%",
          "yes | parted " ++ device ++ " -- set 1 esp on" ] := by
  constructor
  · have h := runCmdsFrom_ok_iff exits (Bootstrap.partionTheDiskCmds device boot root) 0
    simpa [Bootstrap.partionTheDisk, Bootstrap.runCmds] using h
  · rfl

/-! C7: the hook-declaration step. -/

/-- C7 counterexample: for the initial hook list
`["filesystems", "encrypt"]`, which contains `filesystems`, the
hook-declaration step leaves the list unchanged because `encrypt` is
already present, and `encrypt` does not precede `filesystems`. -/
theorem c7_counterexample :
    "filesystems" ∈ (["filesystems", "encrypt"] : List String)
  ∧ Main.declare_hooks ["filesystems", "encrypt"] = ["filesystems", "encrypt"]
  ∧ ¬ (Main.declare_hooks ["filesystems", "encrypt"]).indexOf "encrypt"
        < (Main.declare_hooks ["filesystems", "encrypt"]).indexOf "filesystems" := by
  refine ⟨by decide, by decide, by decide⟩

/-- C7 amended: for every initial hook list that contains `filesystems`
and does not already contain `encrypt`, the hook-declaration step of
`misc_install` inserts `encrypt` at a position strictly before
`filesystems`. -/
theorem c7_encrypt_before_filesystems (hooks : List String)
    (hfs : "filesystems" ∈ hooks) (henc : "encrypt" ∉ hooks) :
    "encrypt" ∈ Main.declare_hooks hooks
  ∧ "filesystems" ∈ Main.declare_hooks hooks
  ∧ (Main.declare_hooks hooks).indexOf "encrypt"
      < (Main.declare_hooks hooks).indexOf "filesystems" := by
  induction hooks with
  | nil => exact absurd hfs (List.not_mem_nil _)
  | cons c t ih =>
    have henc_t : "encrypt" ∉ t := fun h => henc (List.mem_cons_of_mem c h)
    have hne_ec : "encrypt" ≠ c := fun h => henc (by rw [h]; exact List.mem_cons_self c t)
    by_cases hcf : c = "filesystems"
    · subst hcf
      have hd : Main.declare_hooks ("filesystems" :: t)
          = "encrypt" :: "filesystems" :: t := by
        unfold Main.declare_hooks
        rw [if_neg henc, List.indexOf_cons_self, List.insertIdx_zero]
      rw [hd]
      refine ⟨List.mem_cons_self _ _,
        List.mem_cons_of_mem _ (List.mem_cons_self _ _), ?_⟩
      rw [List.indexOf_cons_self,
        List.indexOf_cons_ne _ (by decide : ("encrypt" : String) ≠ "filesystems"),
        List.indexOf_cons_self]
      exact Nat.succ_pos 0
    · have hfs_t : "filesystems" ∈ t := by
        rcases List.mem_cons.mp hfs with h | h
        · exact absurd h.symm hcf
        · exact h
      obtain ⟨ih1, ih2, ih3⟩ := ih hfs_t henc_t
      have hd : Main.declare_hooks (c :: t) = c :: Main.declare_hooks t := by
        unfold Main.declare_hooks
        rw [if_neg henc, if_neg henc_t,
          List.indexOf_cons_ne _ hcf, List.insertIdx_succ_cons]
      rw [hd]
      refine ⟨List.mem_cons_of_mem _ ih1, List.mem_cons_of_mem _ ih2, ?_⟩
      rw [List.indexOf_cons_ne _ (Ne.symm hne_ec), List.indexOf_cons_ne _ hcf]
      exact Nat.succ_lt_succ ih3

/-- C7 witness: on the default archinstall hook list, which contains
`filesystems` and not `encrypt`, the hook-declaration step places
`encrypt` strictly before `filesystems`. -/
theorem c7_witness :
    "encrypt" ∈ Main.declare_hooks
        ["base", "udev", "autodetect", "keyboard", "keymap", "modconf",
         "block", "filesystems", "fsck"]
  ∧ "filesystems" ∈ Main.declare_hooks
        ["base", "udev", "autodetect", "keyboard", "keymap", "modconf",
         "block", "filesystems", "fsck"]
  ∧ (Main.declare_hooks
        ["base", "udev", "autodetect", "keyboard", "keymap", "modconf",
         "block", "filesystems", "fsck"]).indexOf "encrypt"
      < (Main.declare_hooks
        ["base", "udev", "autodetect", "keyboard", "keymap", "modconf",
         "block", "filesystems", "fsck"]).indexOf "filesystems" :=
  c7_encrypt_before_filesystems _ (by decide) (by decide)

/-! C8: the locale configuration writer. -/

/-- C8: writing `/etc/locale.conf` is idempotent — the file is opened with
mode `w`, so the final content is a function of the variable mapping alone
and a second write with the same mapping leaves the content unchanged —
and the content is exactly one `KEY=VALUE` line per configured variable
with no other lines. -/
theorem c8_locale_conf_idempotent (previous : String)
    (lcConfVars : List (String × String))
    (h : ∀ kv ∈ lcConfVars, '\n' ∉ kv.1.data ∧ '\n' ∉ kv.2.data) :
    Main.write_locale_conf (Main.write_locale_conf previous lcConfVars) lcConfVars
      = Main.write_locale_conf previous lcConfVars
  ∧ fileLines (Main.write_locale_conf previous lcConfVars)
      = lcConfVars.map (fun kv => kv.1 ++ "=" ++ kv.2) := by
  refine ⟨rfl, ?_⟩
  unfold Main.write_locale_conf Main.render_locale_conf
  apply fileLines_joinLines
  intro l hl
  rcases List.mem_map.mp hl with ⟨kv, hkv, rfl⟩
  obtain ⟨h1, h2⟩ := h kv hkv
  intro hmem
  rcases (mem_data_append '\n' _ _).mp hmem with hm | hm
  · rcases (mem_data_append '\n' _ _).mp hm with hm2 | hm2
    · exact h1 hm2
    · exact absurd hm2 (by decide)
  · exact h2 hm

/-- C8 witness: a concrete double write of two locale variables over stale
previous content. -/
theorem c8_witness :
    Main.write_locale_conf
        (Main.write_locale_conf "stale content"
          [("LANG", "en_US.UTF-8"), ("LC_TIME", "uk_UA.UTF-8")])
        [("LANG", "en_US.UTF-8"), ("LC_TIME", "uk_UA.UTF-8")]
      = Main.write_locale_conf "stale content"
          [("LANG", "en_US.UTF-8"), ("LC_TIME", "uk_UA.UTF-8")]
  ∧ fileLines (Main.write_locale_conf "stale content"
          [("LANG", "en_US.UTF-8"), ("LC_TIME", "uk_UA.UTF-8")])
      = [("LANG", "en_US.UTF-8"), ("LC_TIME", "uk_UA.UTF-8")].map
          (fun kv => kv.1 ++ "=" ++ kv.2) :=
  c8_locale_conf_idempotent "stale content"
    [("LANG", "en_US.UTF-8"), ("LC_TIME", "uk_UA.UTF-8")] (by decide)

/-! C1: LIFO release of scoped resources. -/

theorem releasedOf_map_rel (stk : List Main.Resource) :
    Main.releasedOf (stk.map Main.Event.rel) = stk := by
  induction stk with
  | nil => rfl
  | cons r stk ih =>
    have h1 : Main.releasedOf (Main.Event.rel r :: stk.map Main.Event.rel)
        = r :: Main.releasedOf (stk.map Main.Event.rel) := rfl
    rw [List.map_cons, h1, ih]

theorem acquiredOf_map_rel (stk : List Main.Resource) :
    Main.acquiredOf (stk.map Main.Event.rel) = [] := by
  induction stk with
  | nil => rfl
  | cons r stk ih =>
    have h1 : Main.acquiredOf (Main.Event.rel r :: stk.map Main.Event.rel)
        = Main.acquiredOf (stk.map Main.Event.rel) := rfl
    rw [List.map_cons, h1, ih]

theorem releasedOf_runStack (fails : Nat → Bool) :
    ∀ (steps : List Main.PStep) (n : Nat) (stk : List Main.Resource),
      Main.releasedOf (Main.runStack fails steps n stk)
        = (Main.acquiredOf (Main.runStack fails steps n stk)).reverse ++ stk := by
  intro steps
  induction steps with
  | nil =>
    intro n stk
    have h0 : Main.runStack fails [] n stk = stk.map Main.Event.rel := rfl
    rw [h0, releasedOf_map_rel, acquiredOf_map_rel, List.reverse_nil,
      List.nil_append]
  | cons s rest ih =>
    intro n stk
    by_cases hf : fails n
    · have h0 : Main.runStack fails (s :: rest) n stk = stk.map Main.Event.rel := by
        simp only [Main.runStack]
        rw [if_pos hf]
      rw [h0, releasedOf_map_rel, acquiredOf_map_rel, List.reverse_nil,
        List.nil_append]
    · cases s with
      | acquire r =>
        have hstep : Main.runStack fails (Main.PStep.acquire r :: rest) n stk
            = Main.Event.acq r :: Main.runStack fails rest (n + 1) (r :: stk) := by
          simp only [Main.runStack]
          rw [if_neg hf]
        rw [hstep]
        have hrel : Main.releasedOf
            (Main.Event.acq r :: Main.runStack fails rest (n + 1) (r :: stk))
            = Main.releasedOf (Main.runStack fails rest (n + 1) (r :: stk)) := by
          simp [Main.releasedOf, List.filterMap_cons]
        have hacq : Main.acquiredOf
            (Main.Event.acq r :: Main.runStack fails rest (n + 1) (r :: stk))
            = r :: Main.acquiredOf (Main.runStack fails rest (n + 1) (r :: stk)) := by
          simp [Main.acquiredOf, List.filterMap_cons]
        rw [hrel, hacq, List.reverse_cons, List.append_assoc]
        exact ih (n + 1) (r :: stk)
      | action name =>
        have hstep : Main.runStack fails (Main.PStep.action name :: rest) n stk
            = Main.runStack fails rest (n + 1) stk := by
          simp only [Main.runStack]
          rw [if_neg hf]
        rw [hstep]
        exact ih (n + 1) stk

/-- C1: for every pipeline run of src/main.py — whether every step
succeeds or some step raises — the sequence of released scoped resources
is exactly the reverse of the sequence of successfully acquired ones, so
each acquired resource (key mount, unlocked encrypted root, root mount,
boot mount, GPT filesystem context, installer context) is released exactly
once, in LIFO order. -/
theorem c1_scoped_release_lifo (fails : Nat → Bool) :
    Main.releasedOf (Main.runPipeline fails)
      = (Main.acquiredOf (Main.runPipeline fails)).reverse
  ∧ ∀ r : Main.Resource,
      (Main.releasedOf (Main.runPipeline fails)).count r
        = (Main.acquiredOf (Main.runPipeline fails)).count r := by
  have h := releasedOf_runStack fails Main.pipelineSteps 0 []
  rw [List.append_nil] at h
  rw [Main.runPipeline]
  refine ⟨h, fun r => ?_⟩
  rw [h]
  exact (List.reverse_perm _).count_eq r

/-! C2: bootloader artifact content. -/

theorem no_nl_append {s t : String} (hs : '\n' ∉ s.data) (ht : '\n' ∉ t.data) :
    '\n' ∉ (s ++ t).data := by
  intro h
  rcases (mem_data_append '\n' s t).mp h with h | h
  · exact hs h
  · exact ht h

theorem arch_conf_fileLines (k v kl kf : String)
    (hk : '\n' ∉ k.data) (hkl : '\n' ∉ kl.data) (hkf : '\n' ∉ kf.data) :
    fileLines (Main.arch_conf k v kl kf)
      = ["title Arch Linux", "linux /vmlinuz-" ++ k]
        ++ (if v = "AuthenticAMD" then ["initrd /amd-ucode.img"]
            else if v = "GenuineIntel" then ["initrd /intel-ucode.img"] else [])
        ++ ["initrd /initramfs-" ++ k ++ ".img",
            "options cryptdevice=LABEL=cryptroot:cryptroot cryptkey=LABEL=" ++ kl
              ++ ":vfat:" ++ kf ++ " root=/dev/mapper/cryptroot rw"] := by
  have hjoin : Main.arch_conf k v kl kf
      = joinLines
          (["title Arch Linux", "linux /vmlinuz-" ++ k]
           ++ (if v = "AuthenticAMD" then ["initrd /amd-ucode.img"]
               else if v = "GenuineIntel" then ["initrd /intel-ucode.img"] else [])
           ++ ["initrd /initramfs-" ++ k ++ ".img",
               "options cryptdevice=LABEL=cryptroot:cryptroot cryptkey=LABEL=" ++ kl
                 ++ ":vfat:" ++ kf ++ " root=/dev/mapper/cryptroot rw"]) := by
    by_cases h1 : v = "AuthenticAMD"
    · apply String.ext
      simp [Main.arch_conf, joinLines, h1, String.data_append, List.append_assoc]
    · by_cases h2 : v = "GenuineIntel" <;>
        (apply String.ext;
         simp [Main.arch_conf, joinLines, h1, h2, String.data_append,
           List.append_assoc])
  rw [hjoin]
  apply fileLines_joinLines
  intro l hl
  have hopt : '\n' ∉ ("options cryptdevice=LABEL=cryptroot:cryptroot cryptkey=LABEL="
      ++ kl ++ ":vfat:" ++ kf ++ " root=/dev/mapper/cryptroot rw").data :=
    no_nl_append (no_nl_append (no_nl_append (no_nl_append (by decide) hkl)
      (by decide)) hkf) (by decide)
  have hlinux : '\n' ∉ ("linux /vmlinuz-" ++ k).data :=
    no_nl_append (by decide) hk
  have hinitrd : '\n' ∉ ("initrd /initramfs-" ++ k ++ ".img").data :=
    no_nl_append (no_nl_append (by decide) hk) (by decide)
  by_cases h1 : v = "AuthenticAMD"
  · simp only [h1, if_pos, if_true, List.mem_append, List.mem_cons,
      List.not_mem_nil, or_false, List.mem_singleton] at hl
    rcases hl with ((rfl | rfl) | rfl) | rfl | rfl
    · decide
    · exact hlinux
    · decide
    · exact hinitrd
    · exact hopt
  · by_cases h2 : v = "GenuineIntel"
    · rw [h2] at hl
      rw [if_neg (by decide : ¬ ("GenuineIntel" : String) = "AuthenticAMD"),
        if_pos (rfl : ("GenuineIntel" : String) = "GenuineIntel")] at hl
      simp only [List.mem_append, List.mem_cons, List.not_mem_nil, or_false] at hl
      rcases hl with ((rfl | rfl) | rfl) | rfl | rfl
      · decide
      · exact hlinux
      · decide
      · exact hinitrd
      · exact hopt
    · simp only [h1, h2, if_false, List.mem_append, List.mem_cons,
        List.not_mem_nil, or_false, List.mem_singleton] at hl
      rcases hl with (rfl | rfl) | rfl | rfl
      · decide
      · exact hlinux
      · exact hinitrd
      · exact hopt

set_option maxRecDepth 8192 in
/-- C2 counterexample: for the configured kernel package `linux-lts`, the
src/main1.py entry file does not contain the claimed line
`linux /vmlinuz-linux-lts`; it contains the hardcoded line
`linux /vmlinuz-linux` instead. -/
theorem c2_counterexample :
    "linux /vmlinuz-linux-lts"
      ∉ fileLines (Main1.arch_conf "linux-lts" "GenuineIntel" "lukskey" "key")
  ∧ "linux /vmlinuz-linux"
      ∈ fileLines (Main1.arch_conf "linux-lts" "GenuineIntel" "lukskey" "key") := by
  refine ⟨by decide, by decide⟩

/-- C2 amended: in src/main.py the two bootloader artifacts are a
deterministic function of (kernel package, detected CPU vendor, key label,
key file path): loader.conf is exactly the lines `default arch`,
`timeout 3`, `editor no`, and entries/arch.conf is exactly the title line,
the `linux /vmlinuz-<kernel>` line, a vendor microcode initrd line exactly
when the vendor is detected as AMD or Intel, the
`initrd /initramfs-<kernel>.img` line, and the options line identifying
the encrypted root by label and the unlock key by the configured key label
and path. The src/main1.py variant hardcodes the kernel name `linux`: its
entry content equals the src/main.py content at kernel package `linux`
whatever kernel package is configured, so it satisfies the claim only when
the configured kernel package is `linux`. -/
theorem c2_bootloader_content (k v kl kf : String)
    (hk : '\n' ∉ k.data) (hkl : '\n' ∉ kl.data) (hkf : '\n' ∉ kf.data) :
    fileLines Main.loader_conf = ["default arch", "timeout 3", "editor no"]
  ∧ fileLines (Main.arch_conf k v kl kf)
      = ["title Arch Linux", "linux /vmlinuz-" ++ k]
        ++ (if v = "AuthenticAMD" then ["initrd /amd-ucode.img"]
            else if v = "GenuineIntel" then ["initrd /intel-ucode.img"] else [])
        ++ ["initrd /initramfs-" ++ k ++ ".img",
            "options cryptdevice=LABEL=cryptroot:cryptroot cryptkey=LABEL=" ++ kl
              ++ ":vfat:" ++ kf ++ " root=/dev/mapper/cryptroot rw"]
  ∧ Main1.arch_conf k v kl kf = Main.arch_conf "linux" v kl kf := by
  refine ⟨by decide, arch_conf_fileLines k v kl kf hk hkl hkf, ?_⟩
  apply String.ext
  by_cases h1 : v = "AuthenticAMD"
  · simp [Main1.arch_conf, Main.arch_conf, h1, String.data_append,
      List.append_assoc]
  · by_cases h2 : v = "GenuineIntel" <;>
      simp [Main1.arch_conf, Main.arch_conf, h1, h2, String.data_append,
        List.append_assoc]

/-- C2 witness: the concrete inputs of the end-to-end scenario of the
specification. -/
theorem c2_witness :
    fileLines Main.loader_conf = ["default arch", "timeout 3", "editor no"]
  ∧ fileLines (Main.arch_conf "linux" "GenuineIntel" "lukskey" "key")
      = ["title Arch Linux", "linux /vmlinuz-" ++ "linux"]
        ++ (if ("GenuineIntel" : String) = "AuthenticAMD"
              then ["initrd /amd-ucode.img"]
            else if ("GenuineIntel" : String) = "GenuineIntel"
              then ["initrd /intel-ucode.img"] else [])
        ++ ["initrd /initramfs-" ++ "linux" ++ ".img",
            "options cryptdevice=LABEL=cryptroot:cryptroot cryptkey=LABEL=" ++ "lukskey"
              ++ ":vfat:" ++ "key" ++ " root=/dev/mapper/cryptroot rw"]
  ∧ Main1.arch_conf "linux" "GenuineIntel" "lukskey" "key"
      = Main.arch_conf "linux" "GenuineIntel" "lukskey" "key" :=
  c2_bootloader_content "linux" "GenuineIntel" "lukskey" "key"
    (by decide) (by decide) (by decide)

/-! C10: the locale loop of misc_install in src/main1.py. -/

/-- C10: for every configuration whose locale-variable mapping is
non-empty, `misc_install` of src/main1.py completes the package bootstrap,
hostname, locale.gen append and locale.conf write stages and then raises:
the locale loop has rebound `i` to the last mapping key, a string, so the
next installer operation fails with `AttributeError`, and no later stage
(module declaration, initramfs regeneration, post-install hooks,
bootloader setup) is reached. -/
theorem c10_locale_loop_rebinds_installer (lcConfVars : List (String × String))
    (h : lcConfVars ≠ []) :
    Main1.misc_install lcConfVars
      = ([Main1.Stage.pacstrapBase, Main1.Stage.setHostname,
          Main1.Stage.localeGenAppend, Main1.Stage.localeConfWrite],
         some "AttributeError")
  ∧ Main1.Stage.moduleDecl ∉ (Main1.misc_install lcConfVars).1
  ∧ Main1.Stage.mkinitcpio ∉ (Main1.misc_install lcConfVars).1
  ∧ Main1.Stage.postHooks ∉ (Main1.misc_install lcConfVars).1
  ∧ Main1.Stage.bootloaderSetup ∉ (Main1.misc_install lcConfVars).1 := by
  obtain ⟨kv, hkv⟩ := Option.isSome_iff_exists.mp (List.getLast?_isSome.mpr h)
  have heq : Main1.misc_install lcConfVars
      = ([Main1.Stage.pacstrapBase, Main1.Stage.setHostname,
          Main1.Stage.localeGenAppend, Main1.Stage.localeConfWrite],
         some "AttributeError") := by
    simp [Main1.misc_install, Main1.miscInstallOps, Main1.runOps, hkv]
  refine ⟨heq, ?_, ?_, ?_, ?_⟩ <;> rw [heq] <;> decide

/-- C10 witness: a concrete single-variable locale mapping. -/
theorem c10_witness :
    Main1.misc_install [("LANG", "en_US.UTF-8")]
      = ([Main1.Stage.pacstrapBase, Main1.Stage.setHostname,
          Main1.Stage.localeGenAppend, Main1.Stage.localeConfWrite],
         some "AttributeError")
  ∧ Main1.Stage.moduleDecl ∉ (Main1.misc_install [("LANG", "en_US.UTF-8")]).1
  ∧ Main1.Stage.mkinitcpio ∉ (Main1.misc_install [("LANG", "en_US.UTF-8")]).1
  ∧ Main1.Stage.postHooks ∉ (Main1.misc_install [("LANG", "en_US.UTF-8")]).1
  ∧ Main1.Stage.bootloaderSetup ∉ (Main1.misc_install [("LANG", "en_US.UTF-8")]).1 :=
  c10_locale_loop_rebinds_installer [("LANG", "en_US.UTF-8")] (by decide)
